import Mathlib

/-!
Shallow embedding of `crates/editor/src/items.rs` from the zed editor:
the `ItemView` implementation for `Editor` (`navigate`, `save`, `save_as`,
`can_save_as`, `deactivated`) and the diagnostic selection logic of
`DiagnosticMessage::update`.  External collaborators (the `text`,
`language` and `multi_buffer` crates) are modelled abstractly, following
the specification where their code is not part of the source slice.
-/

namespace Items

/-- Anchors are opaque position markers; we model them by an identifier.
The snapshot decides which anchors it can resolve and to which offset. -/
abbrev Anchor := Nat

/-- Modelled from the spec: a buffer snapshot as consumed by `navigate`.
The `text` crate that implements snapshots is not part of the source
slice, so we keep it abstract: a length, the set of valid (clippable)
offset boundaries, and the anchor-resolution interface (`can_resolve`,
`to_offset`). -/
structure Snapshot where
  len : Nat
  boundaries : List Nat
  can_resolve : Anchor → Bool
  to_offset : Anchor → Nat

/-- Well-formedness of a snapshot: offset 0 is always a valid boundary and
every boundary lies inside the snapshot. -/
def Snapshot.WF (s : Snapshot) : Prop :=
  0 ∈ s.boundaries ∧ ∀ b ∈ s.boundaries, b ≤ s.len

instance (s : Snapshot) : Decidable s.WF := by
  unfold Snapshot.WF; infer_instance

/-- Modelled from the spec: `clip_offset` with `Bias::Left` from the
`text` crate (not under the source slice) — clip the offset into the
snapshot's valid offset range, biased toward the left (earlier) boundary:
the greatest valid boundary not exceeding `min offset len`. -/
def clip_offset (s : Snapshot) (offset : Nat) : Nat :=
  (s.boundaries.filter (fun b => decide (b ≤ min offset s.len))).foldl max 0

/-- The data carried by a navigation marker: an anchor plus a raw
fallback offset (`NavigationData` in the source). -/
structure NavigationData where
  anchor : Anchor
  offset : Nat

/-- The offset computation of `Editor::navigate` (items.rs lines 53-57):
use the anchor if the snapshot can resolve it, otherwise left-clip the
fallback offset. -/
def resolve (s : Snapshot) (d : NavigationData) : Nat :=
  if s.can_resolve d.anchor then s.to_offset d.anchor
  else clip_offset s d.offset

/-- Editor state relevant to navigation: the buffer snapshot, the current
selected ranges, and the optional navigation history (a list of recorded
positions, newest first). -/
structure EditorState where
  snapshot : Snapshot
  selections : List (Nat × Nat)
  nav_history : Option (List Nat)

/-- Modelled from the spec: `Editor::push_to_nav_history` (defined in
editor.rs, outside the source slice) records a position into the
navigation history when one is attached, and does nothing otherwise. -/
def push_to_nav_history (e : EditorState) (pos : Nat) : EditorState :=
  match e.nav_history with
  | some h => { e with nav_history := some (pos :: h) }
  | none => e

/-- Head position of the newest selection (0 if there is none). -/
def selectionHead (e : EditorState) : Nat :=
  match e.selections with
  | [] => 0
  | r :: _ => r.2

/-- Modelled from the spec: `Editor::select_ranges` (defined in editor.rs,
outside the source slice) re-enters the previous position into the
navigation history mechanism and then installs the new selections. -/
def select_ranges (e : EditorState) (ranges : List (Nat × Nat)) : EditorState :=
  { push_to_nav_history e (selectionHead e) with selections := ranges }

/-- The dynamic `Box<dyn Any>` payload of `navigate`: either a
`NavigationData` or anything else (downcast failure). -/
inductive NavPayload where
  | nav (d : NavigationData)
  | other

/-- `Editor::navigate` (items.rs lines 50-64): on a `NavigationData`
payload, compute the target offset, take the navigation history out,
select the collapsed range at the offset, and restore the history; on any
other payload, do nothing. -/
def navigate (e : EditorState) (data : NavPayload) : EditorState :=
  match data with
  | .other => e
  | .nav d =>
    let offset := resolve e.snapshot d
    let nav := e.nav_history
    let e₁ := { e with nav_history := none }
    let e₂ := select_ranges e₁ [(offset, offset)]
    { e₂ with nav_history := nav }

/-- `Editor::deactivated` (items.rs lines 89-92): push the newest
selection head to the navigation history. -/
def deactivated (e : EditorState) : EditorState :=
  push_to_nav_history e (selectionHead e)

/-- Modelled from the spec: the multi-buffer consumed by `save`,
`save_as` and `can_save_as` (the `multi_buffer` crate is outside the
source slice).  It is a singleton when backed by exactly one underlying
buffer; it carries a transaction log (newest first) and dirty/conflict
flags. -/
structure MultiBuffer where
  excerpts : List Nat
  transactionLog : List Nat
  dirty : Bool
  conflict : Bool

/-- Modelled from the spec: `MultiBuffer::is_singleton` — the buffer is
backed by exactly one underlying document. -/
def MultiBuffer.is_singleton (b : MultiBuffer) : Bool :=
  b.excerpts.length == 1

/-- Modelled from the spec: `MultiBuffer::as_singleton` — the unique
underlying buffer when the multi-buffer is a singleton, `none`
otherwise. -/
def MultiBuffer.as_singleton (b : MultiBuffer) : Option Nat :=
  match b.excerpts with
  | [x] => some x
  | _ => none

/-- Modelled from the spec: `MultiBuffer::push_transaction` pushes a
transaction onto the history without re-executing it. -/
def MultiBuffer.push_transaction (b : MultiBuffer) (t : Nat) : MultiBuffer :=
  { b with transactionLog := t :: b.transactionLog }

/-- `Editor::can_save_as` (items.rs lines 134-136). -/
def can_save_as (b : MultiBuffer) : Bool :=
  b.is_singleton

/-- Observable steps of a single `save` invocation, in order of
occurrence. -/
inductive SaveEvent where
  | autoscroll
  | pushTransaction (t : Nat)
  | persist
deriving DecidableEq

/-- Outcome of one `save` invocation: the final buffer state, the ordered
trace of observable steps, and the value returned to the caller. -/
structure SaveResult where
  buffer : MultiBuffer
  events : List SaveEvent
  result : Except String Unit

/-- `ResultExt::log_err` from the util crate as used at items.rs line
115: log and swallow the error, keeping only the success value. -/
def log_err {α : Type} (r : Except String α) : Option α :=
  match r with
  | .ok a => some a
  | .error _ => none

/-- `Editor::save` (items.rs lines 106-132).  The awaited outcome of the
external formatting service is `formatResult`; the awaited outcome of the
persistence step (`buffer.save`) is `persistResult`.  The formatting
outcome is passed through `log_err`; if a transaction survives and the
buffer is not a singleton it is pushed onto the history; then the buffer
is persisted and only the persistence outcome is returned.  Persistence
clearing the dirty flag on success is modelled from the spec (the
buffer's `save` lives outside the source slice). -/
def save (b : MultiBuffer) (formatResult : Except String Nat)
    (persistResult : Except String Unit) : SaveResult :=
  let transaction := log_err formatResult
  let merged :=
    match transaction with
    | some t => if b.is_singleton then b else b.push_transaction t
    | none => b
  let mergeEvents :=
    match transaction with
    | some t => if b.is_singleton then [] else [SaveEvent.pushTransaction t]
    | none => ([] : List SaveEvent)
  { buffer :=
      match persistResult with
      | .ok _ => { merged with dirty := false }
      | .error _ => merged
    events := SaveEvent.autoscroll :: (mergeEvents ++ [SaveEvent.persist])
    result := persistResult }

/-- The panic message of `save_as` on a non-singleton buffer (items.rs
line 148). -/
def save_as_panic_msg : String :=
  "cannot call save_as on an excerpt list"

/-- Outcome of `save_as`: either the operation path aborts with a panic
(the `expect` at items.rs line 148), or the singleton buffer is handed to
the persistence target resolver. -/
inductive SaveAsOutcome where
  | panicked (msg : String)
  | persisted (bufferId : Nat)
deriving DecidableEq

/-- `Editor::save_as` (items.rs lines 138-154): unwrap the singleton
buffer — panicking on a composite buffer before any persistence I/O —
and persist it to the given path. -/
def save_as (b : MultiBuffer) : SaveAsOutcome :=
  match b.as_singleton with
  | some buf => .persisted buf
  | none => .panicked save_as_panic_msg

/-- A diagnostic entry as returned by the diagnostics range query:
severity (ordered as in LSP: Error = 1 < Warning = 2 < ...), its range
over the text, and its message. -/
structure DiagnosticEntry where
  severity : Nat
  rangeStart : Nat
  rangeEnd : Nat
  message : String
deriving DecidableEq

/-- Length of the entry's range (`entry.range.len()`). -/
def DiagnosticEntry.rangeLen (d : DiagnosticEntry) : Nat :=
  d.rangeEnd - d.rangeStart

/-- `entry.range.is_empty()` for a Rust `Range<usize>`: `start >= end`. -/
def DiagnosticEntry.isEmptyRange (d : DiagnosticEntry) : Bool :=
  decide (d.rangeEnd ≤ d.rangeStart)

/-- Whether an entry overlaps the zero-width cursor range
`cursor..cursor` (inclusive at both ends of the entry's range). -/
def overlapsCursor (cursor : Nat) (d : DiagnosticEntry) : Bool :=
  decide (d.rangeStart ≤ cursor) && decide (cursor ≤ d.rangeEnd)

/-- Modelled from the spec: `diagnostics_in_range` (the diagnostics
source, outside the source slice) returns the entries overlapping the
queried zero-width cursor range. -/
def diagnostics_in_range (cursor : Nat) (ds : List DiagnosticEntry) :
    List DiagnosticEntry :=
  ds.filter (overlapsCursor cursor)

/-- Strict lexicographic order on the `(severity, range length)` key. -/
def lexLt (a b : Nat × Nat) : Bool :=
  decide (a.1 < b.1 ∨ (a.1 = b.1 ∧ a.2 < b.2))

/-- The `min_by_key` comparison key at items.rs line 269. -/
def diagKey (d : DiagnosticEntry) : Nat × Nat :=
  (d.severity, d.rangeLen)

/-- Fold computing the first minimum of a list under `lexLt ∘ key`,
starting from an accumulator. -/
def minFold {α : Type} (key : α → Nat × Nat) (acc : α) : List α → α
  | [] => acc
  | y :: ys => minFold key (cond (lexLt (key y) (key acc)) y acc) ys

/-- Rust's `Iterator::min_by_key`: the first element attaining the
minimal key, or `none` on an empty iterator. -/
def min_by_key {α : Type} (key : α → Nat × Nat) : List α → Option α
  | [] => none
  | x :: xs => some (minFold key x xs)

/-- The selection logic of `DiagnosticMessage::update` (items.rs lines
265-270): query the diagnostics overlapping the cursor, discard
empty-range entries, and take the minimum under the
`(severity, range length)` key. -/
def pick (cursor : Nat) (ds : List DiagnosticEntry) : Option DiagnosticEntry :=
  min_by_key diagKey
    ((diagnostics_in_range cursor ds).filter (fun d => ! d.isEmptyRange))

/-! Helper lemmas about `List.foldl max` (used for offset clipping). -/

theorem foldl_max_le (m : Nat) (l : List Nat) :
    ∀ init : Nat, init ≤ m → (∀ x ∈ l, x ≤ m) → l.foldl max init ≤ m := by
  induction l with
  | nil => intro init hi _; simpa using hi
  | cons x xs ih =>
    intro init hi hl
    simp only [List.foldl_cons]
    refine ih (max init x) ?_ (fun y hy => hl y (List.mem_cons_of_mem _ hy))
    have hx := hl x (List.mem_cons_self _ _)
    omega

theorem le_foldl_max (l : List Nat) : ∀ init : Nat, init ≤ l.foldl max init := by
  induction l with
  | nil => intro init; simp
  | cons x xs ih =>
    intro init
    simp only [List.foldl_cons]
    have := ih (max init x)
    omega

theorem mem_le_foldl_max (l : List Nat) (x : Nat) (hx : x ∈ l) :
    ∀ init : Nat, x ≤ l.foldl max init := by
  induction l with
  | nil => simp at hx
  | cons y ys ih =>
    intro init
    simp only [List.foldl_cons]
    rcases List.mem_cons.mp hx with rfl | hmem
    · have := le_foldl_max ys (max init x)
      omega
    · exact ih hmem (max init y)

theorem foldl_max_mem (l : List Nat) :
    ∀ init : Nat, l.foldl max init = init ∨ l.foldl max init ∈ l := by
  induction l with
  | nil => intro init; left; rfl
  | cons x xs ih =>
    intro init
    simp only [List.foldl_cons]
    rcases ih (max init x) with h | h
    · rw [h]
      rcases Nat.le_total init x with hle | hle
      · right; rw [Nat.max_eq_right hle]; exact List.mem_cons_self _ _
      · left; exact Nat.max_eq_left hle
    · right; exact List.mem_cons_of_mem _ h

/-! Helper lemmas about `lexLt` and `minFold`. -/

theorem lexLt_irrefl (a : Nat × Nat) : lexLt a a = false := by
  simp [lexLt]

theorem minFold_mem {α : Type} (key : α → Nat × Nat) (l : List α) :
    ∀ acc : α, minFold key acc l = acc ∨ minFold key acc l ∈ l := by
  induction l with
  | nil => intro acc; left; rfl
  | cons y ys ih =>
    intro acc
    simp only [minFold]
    cases hc : lexLt (key y) (key acc)
    · simp only [cond_false]
      rcases ih acc with h | h
      · left; exact h
      · right; exact List.mem_cons_of_mem _ h
    · simp only [cond_true]
      rcases ih y with h | h
      · right; rw [h]; exact List.mem_cons_self _ _
      · right; exact List.mem_cons_of_mem _ h

theorem minFold_min {α : Type} (key : α → Nat × Nat) (l : List α) :
    ∀ acc z : α, (z = acc ∨ z ∈ l) →
      lexLt (key z) (key (minFold key acc l)) = false := by
  induction l with
  | nil =>
    intro acc z hz
    rcases hz with rfl | hz
    · exact lexLt_irrefl _
    · simp at hz
  | cons y ys ih =>
    intro acc z hz
    simp only [minFold]
    cases hc : lexLt (key y) (key acc)
    · simp only [cond_false]
      rcases hz with rfl | hz
      · exact ih _ _ (Or.inl rfl)
      · rcases List.mem_cons.mp hz with rfl | hz
        · have hacc := ih acc acc (Or.inl rfl)
          simp only [lexLt, decide_eq_true_eq, decide_eq_false_iff_not] at hc hacc ⊢
          omega
        · exact ih acc z (Or.inr hz)
    · simp only [cond_true]
      rcases hz with rfl | hz
      · have hy := ih y y (Or.inl rfl)
        simp only [lexLt, decide_eq_true_eq, decide_eq_false_iff_not] at hc hy ⊢
        omega
      · rcases List.mem_cons.mp hz with rfl | hz
        · exact ih _ _ (Or.inl rfl)
        · exact ih _ _ (Or.inr hz)

theorem min_by_key_mem {α : Type} (key : α → Nat × Nat) (l : List α) (x : α)
    (h : min_by_key key l = some x) : x ∈ l := by
  cases l with
  | nil => simp [min_by_key] at h
  | cons y ys =>
    simp only [min_by_key, Option.some.injEq] at h
    rcases minFold_mem key ys y with h2 | h2
    · rw [h] at h2; rw [h2]; exact List.mem_cons_self _ _
    · rw [h] at h2; exact List.mem_cons_of_mem _ h2

theorem min_by_key_min {α : Type} (key : α → Nat × Nat) (l : List α) (x z : α)
    (h : min_by_key key l = some x) (hz : z ∈ l) :
    lexLt (key z) (key x) = false := by
  cases l with
  | nil => simp at hz
  | cons y ys =>
    simp only [min_by_key, Option.some.injEq] at h
    rw [← h]
    rcases List.mem_cons.mp hz with rfl | hz
    · exact minFold_min key ys _ _ (Or.inl rfl)
    · exact minFold_min key ys _ _ (Or.inr hz)

/-! Concrete sample values used by the witness theorems. -/

/-- A sample snapshot: length 10, boundaries at 0, 2, 5 and 10; only
anchor 1 is resolvable, and anchors resolve to `anchor + 3`. -/
def sampleSnap : Snapshot :=
  { len := 10
    boundaries := [0, 2, 5, 10]
    can_resolve := fun a => a == 1
    to_offset := fun a => a + 3 }

/-- A sample composite (two-excerpt) multi-buffer. -/
def sampleComposite : MultiBuffer :=
  { excerpts := [1, 2], transactionLog := [], dirty := true, conflict := false }

/-! Claim theorems. -/

/-- Claim C1: for every navigation marker whose anchor is resolvable
against the current buffer snapshot, the offset computation of
`Editor::navigate` returns exactly the anchor's resolved offset,
independent of the marker's fallback offset. -/
theorem resolve_resolvable_uses_anchor (s : Snapshot) (a : Anchor) (o₁ o₂ : Nat)
    (h : s.can_resolve a = true) :
    resolve s ⟨a, o₁⟩ = s.to_offset a ∧
    resolve s ⟨a, o₁⟩ = resolve s ⟨a, o₂⟩ := by
  simp [resolve, h]

theorem resolve_resolvable_uses_anchor_witness :
    sampleSnap.can_resolve 1 = true ∧
    (resolve sampleSnap ⟨1, 7⟩ = sampleSnap.to_offset 1 ∧
     resolve sampleSnap ⟨1, 7⟩ = resolve sampleSnap ⟨1, 99⟩) :=
  ⟨by decide, resolve_resolvable_uses_anchor sampleSnap 1 7 99 (by decide)⟩

/-- Claim C2: for every navigation marker whose anchor is not resolvable
against a well-formed snapshot, `Editor::navigate`'s offset computation
clips the fallback offset with a left bias: the result is in `[0, len]`,
is a valid boundary, and is the greatest boundary not exceeding the
(length-capped) raw fallback offset — resolution never fails and never
yields an out-of-range position. -/
theorem resolve_unresolvable_clips (s : Snapshot) (a : Anchor) (o : Nat)
    (hwf : s.WF) (h : s.can_resolve a = false) :
    resolve s ⟨a, o⟩ ≤ s.len ∧
    resolve s ⟨a, o⟩ ∈ s.boundaries ∧
    ∀ b ∈ s.boundaries, b ≤ min o s.len → b ≤ resolve s ⟨a, o⟩ := by
  obtain ⟨h0, hb⟩ := hwf
  have hres : resolve s ⟨a, o⟩ =
      (s.boundaries.filter (fun b => decide (b ≤ min o s.len))).foldl max 0 := by
    simp [resolve, clip_offset, h]
  refine ⟨?_, ?_, ?_⟩
  · rw [hres]
    refine foldl_max_le s.len _ 0 (Nat.zero_le _) ?_
    intro x hx
    exact hb x (List.mem_filter.mp hx).1
  · rw [hres]
    rcases foldl_max_mem (s.boundaries.filter (fun b => decide (b ≤ min o s.len))) 0
      with h2 | h2
    · rw [h2]; exact h0
    · exact (List.mem_filter.mp h2).1
  · intro b hbmem hble
    rw [hres]
    refine mem_le_foldl_max _ b ?_ 0
    exact List.mem_filter.mpr ⟨hbmem, by simpa using hble⟩

theorem resolve_unresolvable_clips_witness :
    sampleSnap.WF ∧ sampleSnap.can_resolve 2 = false ∧
    (resolve sampleSnap ⟨2, 7⟩ ≤ sampleSnap.len ∧
     resolve sampleSnap ⟨2, 7⟩ ∈ sampleSnap.boundaries ∧
     ∀ b ∈ sampleSnap.boundaries, b ≤ min 7 sampleSnap.len →
       b ≤ resolve sampleSnap ⟨2, 7⟩) :=
  ⟨by decide, by decide, resolve_unresolvable_clips sampleSnap 2 7 (by decide) (by decide)⟩

/-- Claim C8: `can_save_as` is true iff the buffer is backed by exactly
one underlying buffer, independent of the dirty and conflict flags. -/
theorem can_save_as_iff_singleton (ex log : List Nat) (d c d₂ c₂ : Bool) :
    (can_save_as ⟨ex, log, d, c⟩ = true ↔ ex.length = 1) ∧
    can_save_as ⟨ex, log, d, c⟩ = can_save_as ⟨ex, log, d₂, c₂⟩ := by
  constructor
  · simp [can_save_as, MultiBuffer.is_singleton]
  · rfl

/-- Claim C9: `Editor::navigate` takes the navigation history out before
selecting the resolved position and restores it afterwards, so the
history is exactly what it was before — navigation never grows the
history even though `select_ranges` feeds positions into the same
mechanism (`push_to_nav_history`) that `deactivated` uses to record
markers. -/
theorem navigate_preserves_history (e : EditorState) (d : NavigationData) :
    (navigate e (NavPayload.nav d)).nav_history = e.nav_history ∧
    (navigate e (NavPayload.nav d)).selections =
      [(resolve e.snapshot d, resolve e.snapshot d)] ∧
    (deactivated e).nav_history =
      (match e.nav_history with
       | some h => some (selectionHead e :: h)
       | none => none) := by
  obtain ⟨s, sel, nh⟩ := e
  cases nh <;> exact ⟨rfl, rfl, rfl⟩

/-- Claim C10: on any payload that is not a `NavigationData`,
`Editor::navigate` is a complete no-op: the editor state is returned
unchanged. -/
theorem navigate_non_navigation_payload_noop (e : EditorState) :
    navigate e NavPayload.other = e :=
  rfl

/-- Claim C3: when `Editor::save` receives a successful formatting
transaction and the buffer is not a singleton, the transaction is pushed
onto the history exactly once (the log grows by exactly one entry) and
the push happens before the persistence step; on a singleton buffer the
merge step pushes nothing and the log is unchanged. -/
theorem save_merges_transaction_once (b : MultiBuffer) (t : Nat)
    (p : Except String Unit) :
    (save b (Except.ok t) p).buffer.transactionLog =
      (if b.is_singleton then b.transactionLog else t :: b.transactionLog) ∧
    (save b (Except.ok t) p).events =
      (if b.is_singleton then [SaveEvent.autoscroll, SaveEvent.persist]
       else [SaveEvent.autoscroll, SaveEvent.pushTransaction t, SaveEvent.persist]) := by
  cases hs : b.is_singleton <;> cases p <;>
    simp [save, log_err, MultiBuffer.push_transaction, hs]

/-- Claim C4: the value `Editor::save` returns to its caller is exactly
the persistence outcome, whatever the formatting service returned (the
formatting error is swallowed by `log_err`); persistence is always
attempted, and when persistence succeeds the buffer's dirty flag is
cleared even though formatting failed. -/
theorem save_result_from_persistence_only (b : MultiBuffer)
    (f : Except String Nat) (p : Except String Unit) (err : String) :
    (save b f p).result = p ∧
    SaveEvent.persist ∈ (save b f p).events ∧
    (save b (Except.error err) (Except.ok ())).buffer.dirty = false ∧
    (save b (Except.error err) (Except.ok ())).result = Except.ok () := by
  cases f <;> cases p <;> cases hs : b.is_singleton <;>
    simp [save, log_err, MultiBuffer.push_transaction, hs]

/-- Claim C5: within a single `Editor::save` invocation the persistence
step is the last observable event and occurs exactly once, after every
merge (`pushTransaction`) event has resolved — persistence never starts
before the formatting merge has completed, whatever the formatting and
persistence outcomes. -/
theorem save_persist_after_merge (b : MultiBuffer) (f : Except String Nat)
    (p : Except String Unit) :
    (save b f p).events.getLast? = some SaveEvent.persist ∧
    SaveEvent.persist ∉ (save b f p).events.dropLast := by
  cases f <;> cases hs : b.is_singleton <;>
    simp [save, log_err, hs, List.getLast?, List.dropLast]

/-- Claim C6: `Editor::save_as` on a composite (non-singleton) buffer
aborts loudly with the panic of the `expect` call before any persistence
is performed: the outcome is the panic with the source's message, and no
`persisted` outcome is ever produced. -/
theorem save_as_composite_aborts (b : MultiBuffer) (h : b.is_singleton = false) :
    save_as b = SaveAsOutcome.panicked save_as_panic_msg ∧
    ∀ id, save_as b ≠ SaveAsOutcome.persisted id := by
  have has : b.as_singleton = none := by
    unfold MultiBuffer.as_singleton
    cases hex : b.excerpts with
    | nil => rfl
    | cons x rest =>
      cases rest with
      | nil =>
        exfalso
        unfold MultiBuffer.is_singleton at h
        rw [hex] at h
        simp at h
      | cons y rest₂ => rfl
  refine ⟨by simp [save_as, has], ?_⟩
  intro id
  simp [save_as, has]

theorem save_as_composite_aborts_witness :
    sampleComposite.is_singleton = false ∧
    (save_as sampleComposite = SaveAsOutcome.panicked save_as_panic_msg ∧
     ∀ id, save_as sampleComposite ≠ SaveAsOutcome.persisted id) :=
  ⟨by decide, save_as_composite_aborts sampleComposite (by decide)⟩

/-! The spec's example diagnostic set. -/

/-- The spec example's first Error diagnostic, range [10, 20]. -/
def diagE1 : DiagnosticEntry :=
  { severity := 1, rangeStart := 10, rangeEnd := 20, message := "e1" }

/-- The spec example's second Error diagnostic, range [12, 14]. -/
def diagE2 : DiagnosticEntry :=
  { severity := 1, rangeStart := 12, rangeEnd := 14, message := "e2" }

/-- The spec example's Warning diagnostic, range [11, 13]. -/
def diagW1 : DiagnosticEntry :=
  { severity := 2, rangeStart := 11, rangeEnd := 13, message := "w1" }

/-- The spec example's diagnostic set. -/
def exampleDiags : List DiagnosticEntry := [diagE1, diagE2, diagW1]

/-- Claim C7: the selection of `DiagnosticMessage::update` discards all
empty-range diagnostics and returns a minimum of the remaining
overlapping ones under the lexicographic `(severity, range length)` key;
on the spec's example set at cursor 13 it returns the Error [12, 14]
diagnostic, and a zero-width diagnostic at the cursor is never picked
even when it is the only entry. -/
theorem pick_min_by_severity_then_width (c : Nat) (ds : List DiagnosticEntry)
    (d e : DiagnosticEntry) (hp : pick c ds = some d) (he : e ∈ ds)
    (hov : overlapsCursor c e = true) (hne : e.isEmptyRange = false) :
    d ∈ ds ∧ d.isEmptyRange = false ∧ overlapsCursor c d = true ∧
    lexLt (diagKey e) (diagKey d) = false ∧
    pick 13 exampleDiags = some diagE2 ∧
    (∀ c₂ sev m, pick c₂
      [{ severity := sev, rangeStart := c₂, rangeEnd := c₂, message := m }] = none) := by
  have hp₂ : min_by_key diagKey
      ((diagnostics_in_range c ds).filter (fun x => ! x.isEmptyRange)) = some d := hp
  have hmem := min_by_key_mem diagKey _ d hp₂
  obtain ⟨hmem₂, hdne⟩ := List.mem_filter.mp hmem
  obtain ⟨hmemds, hdov⟩ := List.mem_filter.mp hmem₂
  have he₂ : e ∈ (diagnostics_in_range c ds).filter (fun x => ! x.isEmptyRange) :=
    List.mem_filter.mpr ⟨List.mem_filter.mpr ⟨he, hov⟩, by simp [hne]⟩
  refine ⟨hmemds, by simpa using hdne, hdov, min_by_key_min diagKey _ d e hp₂ he₂,
    by decide, ?_⟩
  intro c₂ sev m
  have h1 : DiagnosticEntry.isEmptyRange
      { severity := sev, rangeStart := c₂, rangeEnd := c₂, message := m } = true := by
    simp [DiagnosticEntry.isEmptyRange]
  simp [pick, diagnostics_in_range, List.filter, overlapsCursor, h1, min_by_key]

theorem pick_min_by_severity_then_width_witness :
    pick 13 exampleDiags = some diagE2 ∧ diagW1 ∈ exampleDiags ∧
    overlapsCursor 13 diagW1 = true ∧ diagW1.isEmptyRange = false ∧
    (diagE2 ∈ exampleDiags ∧ diagE2.isEmptyRange = false ∧
     overlapsCursor 13 diagE2 = true ∧
     lexLt (diagKey diagW1) (diagKey diagE2) = false ∧
     pick 13 exampleDiags = some diagE2 ∧
     ∀ c₂ sev m, pick c₂
       [{ severity := sev, rangeStart := c₂, rangeEnd := c₂, message := m }] = none) :=
  ⟨by decide, by decide, by decide, by decide,
   pick_min_by_severity_then_width 13 exampleDiags diagE2 diagW1
     (by decide) (by decide) (by decide) (by decide)⟩

end Items
